import Mathlib

/-!
Verification of the Schnorr non-interactive zero-knowledge discrete-logarithm
proof implemented in `src/zk_ni_proof/src/main.rs`.

The embedding mirrors the split the design makes:

* Group arithmetic is supplied by an external, vetted library (`k256`), so the
  elliptic-curve group is modelled abstractly: a type `Point` that is an
  additive commutative group together with a scalar action of the scalar field
  `ZMod secpN` (`secpN` is the order of the secp256k1 group, the modulus of all
  `k256::Scalar` arithmetic).  The module axioms `(a + b) • P = a • P + b • P`
  and `(a * b) • P = a • (b • P)`, and the fact that the exponent of the group
  divides `secpN`, are exactly the algebraic facts the code relies on from the
  library.  Point equality in `k256` compares group elements (projective points
  are normalised before comparison), so equality of the abstract group models
  it directly.
* The compressed point encoding `ProjectivePoint::to_bytes` is an external
  library function as well and appears as a parameter `pointBytes`; the
  properties used of it (fixed 33-byte length, injectivity on group elements)
  appear as explicit hypotheses where a theorem needs them.
* SHA-256 (the `sha2` crate) is implemented concretely below, byte for byte
  following FIPS 180-4, so that Fiat-Shamir challenges of concrete transcripts
  can be evaluated inside proofs.
* Machine integers are modelled as `Nat` (bytes are `Nat`s below 256, 32-bit
  words are reduced by `w32`); scalars are `ZMod secpN`; the nonce that
  `prove` samples from `thread_rng` is passed as an explicit parameter `r`,
  so every theorem quantifies over the sampled value.
-/

set_option maxRecDepth 200000

/-- Reduction of a `Nat` to a 32-bit word, the word size of SHA-256. -/
def w32 (x : Nat) : Nat := x % 4294967296

/-- Right rotation of a 32-bit word by `n` bits. -/
def rotr (n x : Nat) : Nat := w32 ((x >>> n) ||| (x <<< (32 - n)))

/-- SHA-256 big sigma-0 function (FIPS 180-4, section 4.1.2). -/
def bigSigma0 (x : Nat) : Nat := rotr 2 x ^^^ rotr 13 x ^^^ rotr 22 x

/-- SHA-256 big sigma-1 function. -/
def bigSigma1 (x : Nat) : Nat := rotr 6 x ^^^ rotr 11 x ^^^ rotr 25 x

/-- SHA-256 small sigma-0 function. -/
def smallSigma0 (x : Nat) : Nat := rotr 7 x ^^^ rotr 18 x ^^^ (x >>> 3)

/-- SHA-256 small sigma-1 function. -/
def smallSigma1 (x : Nat) : Nat := rotr 17 x ^^^ rotr 19 x ^^^ (x >>> 10)

/-- SHA-256 choice function `Ch`. -/
def chF (x y z : Nat) : Nat := (x &&& y) ^^^ ((x ^^^ 4294967295) &&& z)

/-- SHA-256 majority function `Maj`. -/
def majF (x y z : Nat) : Nat := (x &&& y) ^^^ (x &&& z) ^^^ (y &&& z)

/-- The 64 SHA-256 round constants (FIPS 180-4 section 4.2.2, in decimal). -/
def sha256K : List Nat :=
  [1116352408, 1899447441, 3049323471, 3921009573, 961987163, 1508970993,
   2453635748, 2870763221, 3624381080, 310598401, 607225278, 1426881987,
   1925078388, 2162078206, 2614888103, 3248222580, 3835390401, 4022224774,
   264347078, 604807628, 770255983, 1249150122, 1555081692, 1996064986,
   2554220882, 2821834349, 2952996808, 3210313671, 3336571891, 3584528711,
   113926993, 338241895, 666307205, 773529912, 1294757372, 1396182291,
   1695183700, 1986661051, 2177026350, 2456956037, 2730485921, 2820302411,
   3259730800, 3345764771, 3516065817, 3600352804, 4094571909, 275423344,
   430227734, 506948616, 659060556, 883997877, 958139571, 1322822218,
   1537002063, 1747873779, 1955562222, 2024104815, 2227730452, 2361852424,
   2428436474, 2756734187, 3204031479, 3329325298]

/-- Working state of the SHA-256 compression function: eight 32-bit words. -/
structure Hash8 where
  a : Nat
  b : Nat
  c : Nat
  d : Nat
  e : Nat
  f : Nat
  g : Nat
  h : Nat

/-- The SHA-256 initial hash value (FIPS 180-4 section 5.3.3, in decimal). -/
def sha256H0 : Hash8 :=
  ⟨1779033703, 3144134277, 1013904242, 2773480762, 1359893119, 2600822924, 528734635, 1541459225⟩

/-- One round of the SHA-256 compression function. -/
def sha256Round (st : Hash8) (k w : Nat) : Hash8 :=
  let t1 := w32 (st.h + bigSigma1 st.e + chF st.e st.f st.g + k + w)
  let t2 := w32 (bigSigma0 st.a + majF st.a st.b st.c)
  ⟨w32 (t1 + t2), st.a, st.b, st.c, w32 (st.d + t1), st.e, st.f, st.g⟩

/-- Iterate the SHA-256 round over schedule words and round constants. -/
def sha256Rounds (st : Hash8) : List Nat → List Nat → Hash8
  | w :: ws, k :: ks => sha256Rounds (sha256Round st k w) ws ks
  | _, _ => st

/-- Message-schedule extension; the list holds the schedule so far, newest word
first, and `n` further words are produced. -/
def sha256Extend : Nat → List Nat → List Nat
  | 0, rws => rws
  | n+1, rws =>
      sha256Extend n
        (w32 (smallSigma1 (rws.getD 1 0) + rws.getD 6 0 + smallSigma0 (rws.getD 14 0) +
          rws.getD 15 0) :: rws)

/-- Group a byte list into big-endian 32-bit words. -/
def bytesToWords : List Nat → List Nat
  | b0 :: b1 :: b2 :: b3 :: rest => (((b0 * 256 + b1) * 256 + b2) * 256 + b3) :: bytesToWords rest
  | _ => []

/-- Big-endian encoding of `v` on exactly `k` bytes (most significant first). -/
def toBeBytes : Nat → Nat → List Nat
  | 0, _ => []
  | k+1, v => toBeBytes k (v / 256) ++ [v % 256]

/-- Value of a big-endian byte list. -/
def fromBeBytes : List Nat → Nat
  | [] => 0
  | b :: l => b * 256 ^ l.length + fromBeBytes l

/-- Little-endian encoding of `v` on exactly `k` bytes (least significant
first); `toLeBytes 8` is `u64::to_le_bytes`. -/
def toLeBytes : Nat → Nat → List Nat
  | 0, _ => []
  | k+1, v => v % 256 :: toLeBytes k (v / 256)

/-- Value of a little-endian byte list. -/
def fromLeBytes : List Nat → Nat
  | [] => 0
  | b :: l => b + 256 * fromLeBytes l

/-- SHA-256 compression of one 64-byte block into the running state. -/
def sha256Compress (st : Hash8) (block : List Nat) : Hash8 :=
  let ws := (sha256Extend 48 (bytesToWords block).reverse).reverse
  let r := sha256Rounds st ws sha256K
  ⟨w32 (st.a + r.a), w32 (st.b + r.b), w32 (st.c + r.c), w32 (st.d + r.d),
   w32 (st.e + r.e), w32 (st.f + r.f), w32 (st.g + r.g), w32 (st.h + r.h)⟩

/-- Fold the compression function over consecutive 64-byte blocks; the fuel is
an upper bound on the number of blocks. -/
def sha256Blocks : Nat → Hash8 → List Nat → Hash8
  | _, st, [] => st
  | 0, st, _ => st
  | fuel+1, st, bytes => sha256Blocks fuel (sha256Compress st (bytes.take 64)) (bytes.drop 64)

/-- SHA-256 of a byte list, as the 32-byte digest (FIPS 180-4: append the bit
`1`, zero padding, and the 64-bit big-endian message bit length, then compress
block by block).  This models the `sha2` crate used by `hash_points`. -/
def sha256 (m : List Nat) : List Nat :=
  let padded :=
    m ++ 128 :: (List.replicate ((64 - (m.length + 9) % 64) % 64) 0 ++ toBeBytes 8 (8 * m.length))
  let st := sha256Blocks padded.length sha256H0 padded
  ([st.a, st.b, st.c, st.d, st.e, st.f, st.g, st.h].map (toBeBytes 4)).flatten

/-- Order of the secp256k1 group: the modulus of `k256::Scalar` arithmetic and
the group order used by `Scalar::reduce`. -/
def secpN : Nat := 115792089237316195423570985008687907852837564279074904382605163141518161494337

/-- The scalar field of secp256k1, the type of `k256::Scalar`. -/
abbrev Scalar := ZMod secpN

instance : NeZero secpN := ⟨by decide⟩

/-- A Schnorr discrete-log proof: commitment `t` and response `s`
(`struct DLogProof` in `src/zk_ni_proof/src/main.rs`). -/
structure DLogProof (Point : Type) where
  t : Point
  s : Scalar

section Transcript

variable {Point : Type} (pointBytes : Point → List Nat)

/-- Byte transcript hashed by `DLogProof::hash_points`: the session-id bytes,
the party id as 8 little-endian bytes (`pid.to_le_bytes()` for `u64`), then
each point's canonical encoding (`point.to_bytes()`), in list order, with no
delimiters. -/
def transcriptBytes (sid : List Nat) (pid : Nat) (points : List Point) : List Nat :=
  sid ++ toLeBytes 8 pid ++ (points.map pointBytes).flatten

/-- Embedding of `DLogProof::hash_points` (main.rs lines 26-35): SHA-256 of the
transcript, the 32-byte digest read as a big-endian integer
(`U256::from_be_slice`) and reduced modulo the group order (`Scalar::reduce`,
the cast into `ZMod secpN`). -/
def DLogProof.hash_points (sid : List Nat) (pid : Nat) (points : List Point) : Scalar :=
  ((fromBeBytes (sha256 (transcriptBytes pointBytes sid pid points)) : Nat) : Scalar)

/-- Modelled from the spec: the repository source never serializes the
response; spec section 6 fixes the wire encoding of `S` as a fixed-width
integer of the scalar-field byte length (32 bytes) in a single documented byte
order, taken big-endian here to match the canonical `k256` scalar encoding. -/
def serializeScalar (s : Scalar) : List Nat := toBeBytes 32 s.val

/-- Modelled from the spec: deserialization of received response bytes; spec
section 7 requires malformed (out-of-range) scalar bytes to be rejected as an
`InvalidInputError` before arithmetic is attempted. -/
def deserializeScalar (bytes : List Nat) : Option Scalar :=
  if fromBeBytes bytes < secpN then some ((fromBeBytes bytes : Nat) : Scalar) else none

/-- Claim C10's independent description of the challenge derivation: SHA-256
over the concatenation of the raw session-id bytes, the party id encoded as
exactly 8 little-endian bytes (byte `k` is `pid / 256 ^ k % 256`), and each
point's compressed canonical encoding in list order; the 32-byte digest is
interpreted as a big-endian integer and reduced modulo the group order. -/
def challengeSpec (sid : List Nat) (pid : Nat) (points : List Point) : Scalar :=
  (((sha256 (sid ++ ((List.range 8).map fun k => pid / 256 ^ k % 256) ++
      points.foldr (fun P bs => pointBytes P ++ bs) [])).foldl
        (fun acc b => 256 * acc + b) 0 % secpN : Nat) : Scalar)

end Transcript

section ProofEngine

variable {Point : Type} [AddCommGroup Point] [Module Scalar Point] [DecidableEq Point]
variable (pointBytes : Point → List Nat)

/-- Embedding of `DLogProof::prove` (main.rs lines 43-55).  The nonce `r` that
the Rust code samples from `thread_rng` is an explicit parameter, so statements
about `prove` quantify over every possible sampled value. -/
def DLogProof.prove (sid : List Nat) (pid : Nat) (x : Scalar) (y G : Point) (r : Scalar) :
    DLogProof Point :=
  let t := r • G
  let c := DLogProof.hash_points pointBytes sid pid [G, y, t]
  let s := r + c * x
  ⟨t, s⟩

/-- Embedding of `DLogProof::verify` (main.rs lines 62-73): recompute the
challenge over `[G, y, t]` and compare `s • G` with `t + c • y` as group
elements (`k256` point equality compares normalised points). -/
def DLogProof.verify (p : DLogProof Point) (sid : List Nat) (pid : Nat) (y G : Point) : Bool :=
  let c := DLogProof.hash_points pointBytes sid pid [G, y, p.t]
  decide (p.s • G = p.t + c • y)

/-- Modelled from the spec: verification of a proof whose response arrives as
serialized bytes; spec section 7 normalizes malformed response bytes to a
`false` verification result. -/
def verifySBytes (t : Point) (sBytes : List Nat) (sid : List Nat) (pid : Nat) (y G : Point) :
    Bool :=
  match deserializeScalar sBytes with
  | some s => DLogProof.verify pointBytes ⟨t, s⟩ sid pid y G
  | none => false

end ProofEngine

/-- Stand-in instantiation of the external compressed point encoding for the
concrete group `ZMod secpN` used in witnesses: a 33-byte encoding, one tag
byte followed by the 32-byte big-endian value, mirroring the shape of
SEC1-compressed secp256k1 points. -/
def stdPointBytes (P : Scalar) : List Nat := 2 :: toBeBytes 32 P.val

/-- UTF-8 bytes of the demo session id "sid" (main.rs line 82). -/
def sidLit : List Nat := [115, 105, 100]

/-- UTF-8 bytes of a different session id ("x"), used to exercise verification
under a changed context. -/
def sidAlt : List Nat := [120]

theorem toBeBytes_length (k v : Nat) : (toBeBytes k v).length = k := by
  induction k generalizing v with
  | zero => rfl
  | succ k ih => simp [toBeBytes, ih]

theorem toLeBytes_length (k v : Nat) : (toLeBytes k v).length = k := by
  induction k generalizing v with
  | zero => rfl
  | succ k ih => simp [toLeBytes, ih]

theorem fromBeBytes_append_singleton (l : List Nat) (b : Nat) :
    fromBeBytes (l ++ [b]) = 256 * fromBeBytes l + b := by
  induction l with
  | nil => simp [fromBeBytes]
  | cons a l ih =>
      simp only [List.cons_append, fromBeBytes, List.append_eq, ih, List.length_append,
        List.length_singleton]
      ring

theorem fromBeBytes_toBeBytes (k v : Nat) : fromBeBytes (toBeBytes k v) = v % 256 ^ k := by
  induction k generalizing v with
  | zero => simp [toBeBytes, fromBeBytes, Nat.mod_one]
  | succ k ih =>
      have h256 : (256 : Nat) ^ (k + 1) = 256 * 256 ^ k := by ring
      rw [toBeBytes, fromBeBytes_append_singleton, ih, h256, Nat.mod_mul]
      ring

theorem fromLeBytes_toLeBytes (k v : Nat) : fromLeBytes (toLeBytes k v) = v % 256 ^ k := by
  induction k generalizing v with
  | zero => simp [toLeBytes, fromLeBytes, Nat.mod_one]
  | succ k ih =>
      have h256 : (256 : Nat) ^ (k + 1) = 256 * 256 ^ k := by ring
      rw [toLeBytes, fromLeBytes, ih, h256, Nat.mod_mul]

theorem fromBeBytes_set_ne (l : List Nat) (i b' : Nat) (hi : i < l.length)
    (hb : b' ≠ l.getD i 0) : fromBeBytes (l.set i b') ≠ fromBeBytes l := by
  induction l generalizing i with
  | nil => simp at hi
  | cons a t ih =>
      cases i with
      | zero =>
          simp only [List.set, fromBeBytes, List.length_set]
          intro h
          exact hb (Nat.eq_of_mul_eq_mul_right (Nat.pos_pow_of_pos t.length (by norm_num))
            (Nat.add_right_cancel h))
      | succ i =>
          simp only [List.set, fromBeBytes, List.length_set]
          intro h
          exact ih i (Nat.lt_of_succ_lt_succ hi) hb (Nat.add_left_cancel h)

theorem secpN_lt_pow : secpN < 256 ^ 32 := by decide

theorem stdPointBytes_length (P : Scalar) : (stdPointBytes P).length = 33 := by
  simp [stdPointBytes, toBeBytes_length]

theorem stdPointBytes_injective : Function.Injective stdPointBytes := by
  intro P Q h
  have h' : fromBeBytes (toBeBytes 32 P.val) = fromBeBytes (toBeBytes 32 Q.val) := by
    simp only [stdPointBytes, List.cons.injEq] at h
    rw [h.2]
  rw [fromBeBytes_toBeBytes, fromBeBytes_toBeBytes,
    Nat.mod_eq_of_lt (lt_trans (ZMod.val_lt P) secpN_lt_pow),
    Nat.mod_eq_of_lt (lt_trans (ZMod.val_lt Q) secpN_lt_pow)] at h'
  exact ZMod.val_injective secpN h'

theorem flatten_map_inj {Point : Type} (pointBytes : Point → List Nat)
    (hinj : Function.Injective pointBytes) (hlen : ∀ P, (pointBytes P).length = 33)
    (l₁ l₂ : List Point) (hl : l₁.length = l₂.length)
    (h : (l₁.map pointBytes).flatten = (l₂.map pointBytes).flatten) : l₁ = l₂ := by
  induction l₁ generalizing l₂ with
  | nil =>
      cases l₂ with
      | nil => rfl
      | cons b t => simp at hl
  | cons a t ih =>
      cases l₂ with
      | nil => simp at hl
      | cons b t' =>
          simp only [List.map_cons, List.flatten_cons] at h
          have hab := List.append_inj h (by rw [hlen, hlen])
          have := hinj hab.1
          subst this
          have := ih t' (by simpa using hl) hab.2
          rw [this]

section ProofEngineLemmas

variable {Point : Type} [AddCommGroup Point] [Module Scalar Point] [DecidableEq Point]
variable (pointBytes : Point → List Nat)

theorem verify_true_iff (p : DLogProof Point) (sid : List Nat) (pid : Nat) (y G : Point) :
    DLogProof.verify pointBytes p sid pid y G = true ↔
      p.s • G = p.t + DLogProof.hash_points pointBytes sid pid [G, y, p.t] • y := by
  simp [DLogProof.verify]

omit [DecidableEq Point] in
theorem prove_t (sid : List Nat) (pid : Nat) (x : Scalar) (y G : Point) (r : Scalar) :
    (DLogProof.prove pointBytes sid pid x y G r).t = r • G := rfl

omit [DecidableEq Point] in
theorem prove_s (sid : List Nat) (pid : Nat) (x : Scalar) (y G : Point) (r : Scalar) :
    (DLogProof.prove pointBytes sid pid x y G r).s =
      r + DLogProof.hash_points pointBytes sid pid [G, y, r • G] * x := rfl

theorem honest_verifies (sid : List Nat) (pid : Nat) (x : Scalar) (G : Point) (r : Scalar) :
    DLogProof.verify pointBytes (DLogProof.prove pointBytes sid pid x (x • G) G r)
      sid pid (x • G) G = true := by
  rw [verify_true_iff, prove_t, prove_s, add_smul, mul_smul]

theorem wrong_witness_verify_iff (sid : List Nat) (pid : Nat) (x : Scalar) (y G : Point)
    (r : Scalar) :
    DLogProof.verify pointBytes (DLogProof.prove pointBytes sid pid x y G r) sid pid y G =
        true ↔
      DLogProof.hash_points pointBytes sid pid [G, y, r • G] • (x • G) =
        DLogProof.hash_points pointBytes sid pid [G, y, r • G] • y := by
  rw [verify_true_iff, prove_t, prove_s, add_smul, mul_smul, add_right_inj]

end ProofEngineLemmas

theorem foldr_append_eq_flatten {Point : Type} (pointBytes : Point → List Nat)
    (l : List Point) :
    l.foldr (fun P bs => pointBytes P ++ bs) [] = (l.map pointBytes).flatten := by
  induction l with
  | nil => rfl
  | cons a t ih => simp [ih]

theorem foldl_be (l : List Nat) (acc : Nat) :
    l.foldl (fun a b => 256 * a + b) acc = acc * 256 ^ l.length + fromBeBytes l := by
  induction l generalizing acc with
  | nil => simp [fromBeBytes]
  | cons b t ih =>
      simp only [List.foldl_cons, ih, fromBeBytes, List.length_cons]
      ring

theorem toLeBytes_eq_range_map (k v : Nat) :
    toLeBytes k v = (List.range k).map fun i => v / 256 ^ i % 256 := by
  induction k generalizing v with
  | zero => rfl
  | succ k ih =>
      rw [toLeBytes, List.range_succ_eq_map, List.map_cons, ih]
      simp only [pow_zero, Nat.div_one, List.map_map]
      refine congrArg₂ _ rfl (List.map_congr_left fun i _ => ?_)
      simp only [Function.comp_apply]
      rw [Nat.div_div_eq_div_mul, pow_succ, mul_comm (256 ^ i) 256]

theorem DLogProof.t_mk {Point : Type} (t : Point) (s : Scalar) : (DLogProof.mk t s).t = t := rfl

theorem DLogProof.s_mk {Point : Type} (t : Point) (s : Scalar) : (DLogProof.mk t s).s = s := rfl

/-- Claim C1: completeness — for every secret scalar `x` (the degenerate
witness `x = 0` included), every session id, party id, base point `G`, every
nonce `r` the prover may sample, and `y = x • G`, verifying the proof produced
by `prove` under the matching context returns `true`. -/
theorem C1_completeness {Point : Type} [AddCommGroup Point] [Module Scalar Point]
    [DecidableEq Point] (pointBytes : Point → List Nat) (sid : List Nat) (pid : Nat)
    (x r : Scalar) (y G : Point) (hy : y = x • G) :
    DLogProof.verify pointBytes (DLogProof.prove pointBytes sid pid x y G r) sid pid y G =
      true := by
  subst hy
  exact honest_verifies pointBytes sid pid x G r

theorem C1_completeness_witness :
    (2 : Scalar) = (2 : Scalar) • (1 : Scalar) ∧
      DLogProof.verify stdPointBytes (DLogProof.prove stdPointBytes sidLit 1 2 2 1 3)
        sidLit 1 2 1 = true :=
  ⟨by decide, C1_completeness stdPointBytes sidLit 1 2 3 2 1 (by decide)⟩

/-- Claim C2: acceptance condition — `verify` returns `true` exactly when
`S • G = T + c • Y` in the group, with `c` the challenge recomputed by
`hash_points` over `(sid, pid, [G, y, T])`.  The comparison is equality of
group elements (the embedding identifies a point with its group element, as
`k256` equality normalises projective representations before comparing), so
the result depends only on the group elements of the inputs. -/
theorem C2_acceptance {Point : Type} [AddCommGroup Point] [Module Scalar Point]
    [DecidableEq Point] (pointBytes : Point → List Nat) (p : DLogProof Point)
    (sid : List Nat) (pid : Nat) (y G : Point) :
    DLogProof.verify pointBytes p sid pid y G = true ↔
      p.s • G = p.t + DLogProof.hash_points pointBytes sid pid [G, y, p.t] • y := by
  simp [DLogProof.verify]

/-- Claim C6: determinism and purity of the challenge derivation —
`hash_points` is a function of exactly its session id, party id and point
list: equal arguments give equal challenge scalars, and the embedding of the
Rust function is a pure function, with no state it could read or write. -/
theorem C6_deterministic {Point : Type} (pointBytes : Point → List Nat)
    (sid₁ sid₂ : List Nat) (pid₁ pid₂ : Nat) (pts₁ pts₂ : List Point)
    (hs : sid₁ = sid₂) (hp : pid₁ = pid₂) (hpts : pts₁ = pts₂) :
    DLogProof.hash_points pointBytes sid₁ pid₁ pts₁ =
      DLogProof.hash_points pointBytes sid₂ pid₂ pts₂ := by
  subst hs
  subst hp
  subst hpts
  rfl

theorem C6_deterministic_witness :
    sidLit = sidLit ∧ (1 : Nat) = 1 ∧ ([1, 0] : List Scalar) = [1, 0] ∧
      DLogProof.hash_points stdPointBytes sidLit 1 [1, 0] =
        DLogProof.hash_points stdPointBytes sidLit 1 [1, 0] :=
  ⟨rfl, rfl, rfl, C6_deterministic stdPointBytes sidLit sidLit 1 1 [1, 0] [1, 0] rfl rfl rfl⟩

/-- Claim C10: exact transcript encoding — the challenge scalar computed by
`hash_points` is SHA-256 over the concatenation of the raw session-id bytes,
the party id as exactly 8 little-endian bytes, and each point's compressed
canonical encoding in list order, with the 32-byte digest read as a big-endian
integer and reduced modulo the group order (the independent restatement is
`challengeSpec`). -/
theorem C10_exact_encoding {Point : Type} (pointBytes : Point → List Nat)
    (sid : List Nat) (pid : Nat) (points : List Point) :
    DLogProof.hash_points pointBytes sid pid points =
      challengeSpec pointBytes sid pid points := by
  unfold DLogProof.hash_points challengeSpec transcriptBytes
  rw [toLeBytes_eq_range_map, foldr_append_eq_flatten, foldl_be, zero_mul, zero_add,
    ZMod.natCast_mod]

/-- Claim C3 (amended): for an honestly produced proof (`y = x • G`, any nonce
`r`), each single-field change of the verification context is rejected except
on a hash-derived challenge coincidence, the failure mode the claim itself
excepts; the session/party prong additionally needs `y` of full group order
(in the prime-order secp256k1 group every point except the identity, so every
honest `y` with `x ≠ 0` — for `y` the identity the claim fails outright, see
the counterexample).  The prongs: (1) verification under any other
`(session id, party id)` pair returns `false` whenever the recomputed
challenge differs from the original one; (2) verification against any other
public point `y'` returns `false` whenever `c' • y' ≠ c • y`, with `c'` the
challenge recomputed with `y'` in the transcript; (3) verification against any
other base point `G'` returns `false` whenever
`(r + c * x) • G' ≠ (r + c' * x) • G`, with `c'` the challenge recomputed with
`G'` in the transcript — the prover's response applied to the new base point
against the value an honest response under the new challenge would take on the
old one. -/
theorem C3_domain_binding_amended {Point : Type} [AddCommGroup Point] [Module Scalar Point]
    [DecidableEq Point] (pointBytes : Point → List Nat) (sid : List Nat) (pid : Nat)
    (x r : Scalar) (y G : Point) (hy : y = x • G) :
    (∀ (sid' : List Nat) (pid' : Nat), ¬(sid' = sid ∧ pid' = pid) →
      (∀ a : Scalar, a • y = 0 → a = 0) →
      DLogProof.hash_points pointBytes sid' pid'
          [G, y, (DLogProof.prove pointBytes sid pid x y G r).t] ≠
        DLogProof.hash_points pointBytes sid pid
          [G, y, (DLogProof.prove pointBytes sid pid x y G r).t] →
      DLogProof.verify pointBytes (DLogProof.prove pointBytes sid pid x y G r)
        sid' pid' y G = false) ∧
    (∀ y' : Point, y' ≠ y →
      DLogProof.hash_points pointBytes sid pid
          [G, y', (DLogProof.prove pointBytes sid pid x y G r).t] • y' ≠
        DLogProof.hash_points pointBytes sid pid
          [G, y, (DLogProof.prove pointBytes sid pid x y G r).t] • y →
      DLogProof.verify pointBytes (DLogProof.prove pointBytes sid pid x y G r)
        sid pid y' G = false) ∧
    (∀ G' : Point, G' ≠ G →
      (r + DLogProof.hash_points pointBytes sid pid
          [G, y, (DLogProof.prove pointBytes sid pid x y G r).t] * x) • G' ≠
        (r + DLogProof.hash_points pointBytes sid pid
          [G', y, (DLogProof.prove pointBytes sid pid x y G r).t] * x) • G →
      DLogProof.verify pointBytes (DLogProof.prove pointBytes sid pid x y G r)
        sid pid y G' = false) := by
  subst hy
  refine ⟨?_, ?_, ?_⟩
  · intro sid' pid' _hctx hord hc
    rw [Bool.eq_false_iff]
    intro hver
    rw [prove_t] at hc
    rw [verify_true_iff, prove_t, prove_s, add_smul, mul_smul, add_right_inj] at hver
    have hzero : (DLogProof.hash_points pointBytes sid pid [G, x • G, r • G] -
        DLogProof.hash_points pointBytes sid' pid' [G, x • G, r • G]) • (x • G) = 0 := by
      rw [sub_smul, hver, sub_self]
    exact hc (sub_eq_zero.mp (hord _ hzero)).symm
  · intro y' _hy' hcc
    rw [Bool.eq_false_iff]
    intro hver
    rw [prove_t] at hcc
    rw [verify_true_iff, prove_t, prove_s, add_smul, mul_smul, add_right_inj] at hver
    exact hcc hver.symm
  · intro G' _hG' hcc
    rw [Bool.eq_false_iff]
    intro hver
    rw [prove_t] at hcc
    rw [verify_true_iff, prove_t, prove_s] at hver
    rw [← mul_smul, ← add_smul] at hver
    exact hcc hver

theorem C3_domain_binding_amended_witness :
    ((1 : Scalar) = (1 : Scalar) • (1 : Scalar)) ∧
    ((∀ (sid' : List Nat) (pid' : Nat), ¬(sid' = sidLit ∧ pid' = 1) →
        (∀ a : Scalar, a • (1 : Scalar) = 0 → a = 0) →
        DLogProof.hash_points stdPointBytes sid' pid'
            [1, 1, (DLogProof.prove stdPointBytes sidLit 1 1 1 1 1).t] ≠
          DLogProof.hash_points stdPointBytes sidLit 1
            [1, 1, (DLogProof.prove stdPointBytes sidLit 1 1 1 1 1).t] →
        DLogProof.verify stdPointBytes (DLogProof.prove stdPointBytes sidLit 1 1 1 1 1)
          sid' pid' 1 1 = false) ∧
      (∀ y' : Scalar, y' ≠ 1 →
        DLogProof.hash_points stdPointBytes sidLit 1
            [1, y', (DLogProof.prove stdPointBytes sidLit 1 1 1 1 1).t] • y' ≠
          DLogProof.hash_points stdPointBytes sidLit 1
            [1, 1, (DLogProof.prove stdPointBytes sidLit 1 1 1 1 1).t] • 1 →
        DLogProof.verify stdPointBytes (DLogProof.prove stdPointBytes sidLit 1 1 1 1 1)
          sidLit 1 y' 1 = false) ∧
      (∀ G' : Scalar, G' ≠ 1 →
        (1 + DLogProof.hash_points stdPointBytes sidLit 1
            [1, 1, (DLogProof.prove stdPointBytes sidLit 1 1 1 1 1).t] * 1) • G' ≠
          (1 + DLogProof.hash_points stdPointBytes sidLit 1
            [G', 1, (DLogProof.prove stdPointBytes sidLit 1 1 1 1 1).t] * 1) • 1 →
        DLogProof.verify stdPointBytes (DLogProof.prove stdPointBytes sidLit 1 1 1 1 1)
          sidLit 1 1 G' = false)) ∧
    DLogProof.verify stdPointBytes (DLogProof.prove stdPointBytes sidLit 1 1 1 1 1)
      sidAlt 1 1 1 = false ∧
    DLogProof.verify stdPointBytes (DLogProof.prove stdPointBytes sidLit 1 1 1 1 1)
      sidLit 1 2 1 = false ∧
    DLogProof.verify stdPointBytes (DLogProof.prove stdPointBytes sidLit 1 1 1 1 1)
      sidLit 1 1 2 = false := by
  refine ⟨by decide, C3_domain_binding_amended stdPointBytes sidLit 1 1 1 1 1 (by decide),
    ?_, ?_, ?_⟩
  · exact (C3_domain_binding_amended stdPointBytes sidLit 1 1 1 1 1 (by decide)).1 sidAlt 1
      (by decide) (fun a h => by simpa using h) (by decide)
  · exact (C3_domain_binding_amended stdPointBytes sidLit 1 1 1 1 1 (by decide)).2.1 2
      (by decide) (by decide)
  · exact (C3_domain_binding_amended stdPointBytes sidLit 1 1 1 1 1 (by decide)).2.2 2
      (by decide) (by decide)

/-- Claim C3 counterexample: the honestly produced proof for the degenerate
witness `x = 0` (so `y` is the identity) verifies under a different session id
even though the recomputed challenge differs from the original one — domain
binding fails, and not through a challenge coincidence. -/
theorem C3_domain_binding_cex :
    ((0 : Scalar) = (0 : Scalar) • (1 : Scalar)) ∧
    sidAlt ≠ sidLit ∧
    (DLogProof.hash_points stdPointBytes sidAlt 1
        [1, 0, (DLogProof.prove stdPointBytes sidLit 1 0 0 1 1).t] ≠
      DLogProof.hash_points stdPointBytes sidLit 1
        [1, 0, (DLogProof.prove stdPointBytes sidLit 1 0 0 1 1).t]) ∧
    DLogProof.verify stdPointBytes (DLogProof.prove stdPointBytes sidLit 1 0 0 1 1)
      sidAlt 1 0 1 = true :=
  ⟨by decide, by decide, by decide, by decide⟩

/-- Claim C4 (amended): `verify` is total and returns a plain boolean on every
well-typed input, but a proof whose commitment `T` is the identity is not
unconditionally rejected: it verifies exactly when `S • G = c • Y`, which is
satisfiable (for example `S = 0` with `Y` the identity, see the
counterexample). -/
theorem C4_infinity_amended {Point : Type} [AddCommGroup Point] [Module Scalar Point]
    [DecidableEq Point] (pointBytes : Point → List Nat) (p : DLogProof Point)
    (sid : List Nat) (pid : Nat) (y G : Point) (ht : p.t = 0) :
    DLogProof.verify pointBytes p sid pid y G = true ↔
      p.s • G = DLogProof.hash_points pointBytes sid pid [G, y, (0 : Point)] • y := by
  obtain ⟨t, s⟩ := p
  rw [DLogProof.t_mk] at ht
  subst ht
  simp [DLogProof.verify, zero_add]

theorem C4_infinity_amended_witness :
    ((⟨0, 3⟩ : DLogProof Scalar).t = 0) ∧
      (DLogProof.verify stdPointBytes (⟨0, 3⟩ : DLogProof Scalar) sidLit 1 5 1 = true ↔
        (⟨(0 : Scalar), 3⟩ : DLogProof Scalar).s • (1 : Scalar) =
          DLogProof.hash_points stdPointBytes sidLit 1 [1, 5, 0] • (5 : Scalar)) :=
  ⟨rfl, C4_infinity_amended stdPointBytes ⟨0, 3⟩ sidLit 1 5 1 rfl⟩

/-- Claim C4 counterexample: the malformed proof with commitment `T` the point
at infinity and response `S = 0`, checked against the identity statement
`y = 0`, verifies — `verify` does not evaluate to `false` on every proof whose
commitment is the identity. -/
theorem C4_infinity_cex :
    ((⟨0, 0⟩ : DLogProof Scalar).t = 0) ∧
      DLogProof.verify stdPointBytes (⟨0, 0⟩ : DLogProof Scalar) sidLit 1 0 1 = true :=
  ⟨rfl, by decide⟩

/-- Claim C7 (amended): a permutation of the point list that actually changes
the list changes the byte transcript fed to SHA-256 (using that the point
encoding is injective with fixed width 33); the challenge scalars of two
distinct transcripts then differ unless SHA-256 (reduced mod the group order)
collides on them, which can be neither established nor excluded, and on a list
with repeated points a non-identity permutation need not change the list at
all (see the counterexample). -/
theorem C7_reorder_amended {Point : Type} (pointBytes : Point → List Nat)
    (hinj : Function.Injective pointBytes) (hlen : ∀ P, (pointBytes P).length = 33)
    (sid : List Nat) (pid : Nat) (l : List Point) (σ : Equiv.Perm (Fin l.length))
    (hne : (List.ofFn fun i => l.get (σ i)) ≠ l) :
    transcriptBytes pointBytes sid pid (List.ofFn fun i => l.get (σ i)) ≠
      transcriptBytes pointBytes sid pid l := by
  intro h
  unfold transcriptBytes at h
  have h2 := List.append_cancel_left h
  exact hne (flatten_map_inj pointBytes hinj hlen _ _ (by simp) h2)

theorem C7_reorder_amended_witness :
    Function.Injective stdPointBytes ∧ (∀ P : Scalar, (stdPointBytes P).length = 33) ∧
    ((List.ofFn fun i => [(1 : Scalar), 2].get (Equiv.swap (0 : Fin 2) 1 i)) ≠
      [(1 : Scalar), 2]) ∧
    transcriptBytes stdPointBytes sidLit 1
        (List.ofFn fun i => [(1 : Scalar), 2].get (Equiv.swap (0 : Fin 2) 1 i)) ≠
      transcriptBytes stdPointBytes sidLit 1 [(1 : Scalar), 2] :=
  ⟨stdPointBytes_injective, stdPointBytes_length, by decide,
    C7_reorder_amended stdPointBytes stdPointBytes_injective stdPointBytes_length sidLit 1
      [(1 : Scalar), 2] (Equiv.swap (0 : Fin 2) (1 : Fin 2)) (by decide)⟩

/-- Claim C7 counterexample: on a list with a repeated point, swapping the two
positions is a non-identity permutation of the list positions that leaves the
list unchanged, so the challenge scalar is unchanged as well — not every
non-identity permutation of the point list changes the output of
`hash_points`. -/
theorem C7_reorder_cex :
    Equiv.swap (0 : Fin 2) 1 ≠ Equiv.refl (Fin 2) ∧
      DLogProof.hash_points stdPointBytes sidLit 1
          (List.ofFn fun i => [(1 : Scalar), 1].get (Equiv.swap (0 : Fin 2) 1 i)) =
        DLogProof.hash_points stdPointBytes sidLit 1 [(1 : Scalar), 1] := by
  constructor
  · decide
  · have hl : (List.ofFn fun i => [(1 : Scalar), 1].get (Equiv.swap (0 : Fin 2) 1 i)) =
        [(1 : Scalar), 1] := by decide
    rw [hl]

/-- Claim C8: transcript non-ambiguity across contexts — the context part of
the transcript (session-id bytes followed by the 8-byte little-endian party
id, before any points are appended) is injective in the
`(session id, party id)` pair: the variable-length field is followed only by a
fixed-width one, so distinct pairs produce distinct byte strings. -/
theorem C8_transcript_injective {Point : Type} (pointBytes : Point → List Nat)
    (sid sid' : List Nat) (pid pid' : Nat) (h64 : pid < 2 ^ 64) (h64' : pid' < 2 ^ 64)
    (hne : ¬(sid = sid' ∧ pid = pid')) :
    transcriptBytes pointBytes sid pid [] ≠ transcriptBytes pointBytes sid' pid' [] := by
  intro h
  unfold transcriptBytes at h
  simp only [List.map_nil, List.flatten_nil, List.append_nil] at h
  have hl := List.append_inj' h (by rw [toLeBytes_length, toLeBytes_length])
  have hpow : (256 : Nat) ^ 8 = 2 ^ 64 := by norm_num
  have hpid : pid = pid' := by
    have hv := congrArg fromLeBytes hl.2
    rw [fromLeBytes_toLeBytes, fromLeBytes_toLeBytes, hpow, Nat.mod_eq_of_lt h64,
      Nat.mod_eq_of_lt h64'] at hv
    exact hv
  exact hne ⟨hl.1, hpid⟩

theorem C8_transcript_injective_witness :
    (1 : Nat) < 2 ^ 64 ∧ (2 : Nat) < 2 ^ 64 ∧ (¬(sidLit = sidLit ∧ (1 : Nat) = 2)) ∧
      transcriptBytes stdPointBytes sidLit 1 [] ≠ transcriptBytes stdPointBytes sidLit 2 [] :=
  ⟨by decide, by decide, by decide,
    C8_transcript_injective stdPointBytes sidLit sidLit 1 2 (by decide) (by decide) (by decide)⟩

theorem verifySBytes_ne_false {Point : Type} [AddCommGroup Point] [Module Scalar Point]
    [DecidableEq Point] (pointBytes : Point → List Nat) (p : DLogProof Point)
    (sid : List Nat) (pid : Nat) (y G : Point)
    (hG : ∀ a : Scalar, a • G = 0 → a = 0)
    (hver : DLogProof.verify pointBytes p sid pid y G = true)
    (sb : List Nat) (hsb : fromBeBytes sb ≠ p.s.val) :
    verifySBytes pointBytes p.t sb sid pid y G = false := by
  by_cases hlt : fromBeBytes sb < secpN
  · simp only [verifySBytes, deserializeScalar, if_pos hlt]
    rw [Bool.eq_false_iff]
    intro hver'
    rw [verify_true_iff, DLogProof.t_mk, DLogProof.s_mk] at hver'
    rw [verify_true_iff] at hver
    have h0 : (((fromBeBytes sb : Nat) : Scalar) - p.s) • G = 0 := by
      rw [sub_smul, hver', hver, sub_self]
    have hcast := sub_eq_zero.mp (hG _ h0)
    exact hsb (by rw [← ZMod.val_cast_of_lt hlt, hcast])
  · simp only [verifySBytes, deserializeScalar, if_neg hlt]

/-- Claim C9: the literal scenario — session id "sid", party id 1, any secret
`x` with `y = x • G` for a full-order base point `G`, any nonce `r` — the
proof produced by `prove` verifies; and replacing any single byte of the
32-byte fixed-width serialization of the response `S` by a different byte
value makes verification of the mutated response return `false` (the mutated
bytes either decode to a different reduced scalar, or are out of canonical
range and rejected). -/
theorem C9_response_tamper {Point : Type} [AddCommGroup Point] [Module Scalar Point]
    [DecidableEq Point] (pointBytes : Point → List Nat) (x r : Scalar) (y G : Point)
    (hy : y = x • G) (hG : ∀ a : Scalar, a • G = 0 → a = 0)
    (i b' : Nat) (hi : i < 32) (_hb256 : b' < 256)
    (hb : b' ≠ (serializeScalar (DLogProof.prove pointBytes sidLit 1 x y G r).s).getD i 0) :
    DLogProof.verify pointBytes (DLogProof.prove pointBytes sidLit 1 x y G r)
        sidLit 1 y G = true ∧
      verifySBytes pointBytes (DLogProof.prove pointBytes sidLit 1 x y G r).t
        ((serializeScalar (DLogProof.prove pointBytes sidLit 1 x y G r).s).set i b')
        sidLit 1 y G = false := by
  subst hy
  refine ⟨honest_verifies pointBytes sidLit 1 x G r, ?_⟩
  have hslen : (serializeScalar (DLogProof.prove pointBytes sidLit 1 x (x • G) G r).s).length =
      32 := by
    simp [serializeScalar, toBeBytes_length]
  have hval : fromBeBytes (serializeScalar (DLogProof.prove pointBytes sidLit 1 x (x • G) G r).s) =
      (DLogProof.prove pointBytes sidLit 1 x (x • G) G r).s.val := by
    simp only [serializeScalar, fromBeBytes_toBeBytes]
    exact Nat.mod_eq_of_lt (lt_trans (ZMod.val_lt _) secpN_lt_pow)
  apply verifySBytes_ne_false pointBytes _ sidLit 1 (x • G) G hG
    (honest_verifies pointBytes sidLit 1 x G r)
  intro hcontra
  exact fromBeBytes_set_ne _ i b' (by rw [hslen]; exact hi) hb (hcontra.trans hval.symm)

theorem C9_response_tamper_witness :
    ((2 : Scalar) = (2 : Scalar) • (1 : Scalar)) ∧
    (∀ a : Scalar, a • (1 : Scalar) = 0 → a = 0) ∧
    (0 : Nat) < 32 ∧ (0 : Nat) < 256 ∧
    ((0 : Nat) ≠ (serializeScalar (DLogProof.prove stdPointBytes sidLit 1 2 2 1 3).s).getD 0 0) ∧
    (DLogProof.verify stdPointBytes (DLogProof.prove stdPointBytes sidLit 1 2 2 1 3)
        sidLit 1 2 1 = true ∧
      verifySBytes stdPointBytes (DLogProof.prove stdPointBytes sidLit 1 2 2 1 3).t
        ((serializeScalar (DLogProof.prove stdPointBytes sidLit 1 2 2 1 3).s).set 0 0)
        sidLit 1 2 1 = false) :=
  ⟨by decide, fun a h => by simpa using h, by decide, by decide, by decide,
    C9_response_tamper stdPointBytes 2 3 2 1 (by decide) (fun a h => by simpa using h) 0 0
      (by decide) (by decide) (by decide)⟩
